import Mathlib

/-
  Verification of the usage-metering / quota-enforcement core of the
  retriever.sh repository, together with two frontend helpers.

  The backend quota subsystem (token-bucket rate limiting, per-project
  vector capacity guard) is described in the repository documentation
  (README "Usage Limits", project notes on `consume_rate_limit`,
  `apply_plan_limits`, `ensure_vector_capacity`) and in the specification;
  its Python source is not part of the file set, so those operations are
  modelled from the spec, as noted per definition.  The frontend helpers
  (`fetchWithAuth`, the usage percentages) are embedded directly from
  `src/frontend/src/lib/api.ts` and `src/frontend/src/routes/projects/index.tsx`.
-/

namespace RetrieverSh

/-! ## Plan catalog -/

/-- Which operation class a token bucket governs (`query` or `ingest`),
matching the `kind` column of `rate_limit_buckets`. -/
inductive BucketKind where
  | query : BucketKind
  | ingest : BucketKind
deriving DecidableEq

/-- Modelled from the spec: a Plan row of the plan catalog ("slug (unique key),
display name, price, `queryQpsLimit`, `ingestQpsLimit`, `projectLimit`
(nullable = unlimited), `vectorLimitPerProject` (nullable = unlimited)").
QPS limits are rationals (tokens per second); nullable limits are `Option`. -/
structure Plan where
  slug : String
  displayName : String
  price : ℚ
  queryQpsLimit : ℚ
  ingestQpsLimit : ℚ
  projectLimit : Option ℕ
  vectorLimitPerProject : Option ℤ
deriving DecidableEq

/-- The plan's QPS limit for a bucket kind. -/
def planLimitFor (p : Plan) : BucketKind → ℚ
  | BucketKind.query => p.queryQpsLimit
  | BucketKind.ingest => p.ingestQpsLimit

/-- Modelled from the spec and the repository docs: the seeded `tinkering`
plan.  The project notes (part_008, "Rate limit update (Nov 12, 2025)") set
Tinkering's query/ingest QPS limits to 5, its project limit to 3 and its
per-project vector cap to 10000. -/
def tinkering : Plan :=
  { slug := "tinkering"
    displayName := "Tinkering"
    price := 5
    queryQpsLimit := 5
    ingestQpsLimit := 5
    projectLimit := some 3
    vectorLimitPerProject := some 10000 }

/-! ## Rate limiter (token bucket over durable storage) -/

/-- Modelled from the spec: one `rate_limit_buckets` row for a (tenant, kind)
pair: `capacity` (plan limit, tokens/second), `tokens` (current stored
tokens, a real number with 0 ≤ tokens ≤ capacity), `lastRefillAt`
(timestamp, seconds). -/
structure RateLimitBucket where
  capacity : ℚ
  tokens : ℚ
  lastRefillAt : ℚ
deriving DecidableEq

/-- Outcome of a rate-limit admission check. -/
inductive RateDecision where
  | Admitted : RateDecision
  | Denied (retryAfterSeconds : ℚ) : RateDecision
deriving DecidableEq

/-- Modelled from the spec (§4.1 steps 2–3): refreshed token count.
`elapsed = now − lastRefillAt` clamped to 0 when negative, and
`tokens = min(capacity, tokens + elapsed * capacity)` — the burst ceiling
equals `capacity` itself (one second's worth). -/
def refillTokens (b : RateLimitBucket) (now : ℚ) : ℚ :=
  min b.capacity (b.tokens + max 0 (now - b.lastRefillAt) * b.capacity)

/-- Modelled from the spec (§4.1 steps 4–5): the `admit(tenantId, kind)`
admission check, named `consume_rate_limit` as in the repository's project
notes.  After refilling: if `tokens ≥ 1`, debit one token, set
`lastRefillAt = now`, return Admitted; else write back the refreshed
tokens and `lastRefillAt` without debiting and return Denied with
`retryAfterSeconds = (1 - tokens) / capacity`. -/
def consume_rate_limit (b : RateLimitBucket) (now : ℚ) :
    RateDecision × RateLimitBucket :=
  let t := refillTokens b now
  if 1 ≤ t then
    (RateDecision.Admitted, { b with tokens := t - 1, lastRefillAt := now })
  else
    (RateDecision.Denied ((1 - t) / b.capacity),
      { b with tokens := t, lastRefillAt := now })

/-- Modelled from the spec: a bucket freshly created from the tenant's
current plan (self-heal / bootstrap): capacity and initial fill are the
plan's limit for the kind. -/
def freshBucket (p : Plan) (kind : BucketKind) (now : ℚ) : RateLimitBucket :=
  { capacity := planLimitFor p kind
    tokens := planLimitFor p kind
    lastRefillAt := now }

/-- Modelled from the spec (§4.1 "Plan change"): `applyPlanLimits` rewrites
the bucket's capacity to the new plan's limit for its kind and clamps the
stored tokens to the new capacity; named `apply_plan_limits` as in the
repository's project notes. -/
def apply_plan_limits (p : Plan) (kind : BucketKind) (b : RateLimitBucket) :
    RateLimitBucket :=
  { capacity := planLimitFor p kind
    tokens := min b.tokens (planLimitFor p kind)
    lastRefillAt := b.lastRefillAt }

/-- A batch of `n` admission checks on the same bucket, all at the same
instant `now` (the row lock serializes concurrent checks, so a batch of
identical concurrent calls is a sequence; no refill accrues because each
check sets `lastRefillAt = now`). -/
def admitBatch : ℕ → RateLimitBucket → ℚ → List RateDecision × RateLimitBucket
  | 0, b, _ => ([], b)
  | n + 1, b, now =>
    let r := consume_rate_limit b now
    let rest := admitBatch n r.2 now
    (r.1 :: rest.1, rest.2)

/-- Number of Admitted outcomes in a list of decisions. -/
def countAdmitted : List RateDecision → ℕ
  | [] => 0
  | RateDecision.Admitted :: rs => countAdmitted rs + 1
  | RateDecision.Denied _ :: rs => countAdmitted rs

/-- Number of Denied outcomes in a list of decisions. -/
def countDenied : List RateDecision → ℕ
  | [] => 0
  | RateDecision.Admitted :: rs => countDenied rs
  | RateDecision.Denied _ :: rs => countDenied rs + 1

/-! ## Capacity guard (per-project vector cap) -/

/-- Outcome of a capacity reservation. -/
inductive ReserveResult where
  | Reserved : ReserveResult
  | Rejected (limit : ℤ) (current : ℤ) : ReserveResult
deriving DecidableEq

/-- Modelled from the spec (§4.2, backed by the repository's
`ensure_vector_capacity`): `reserveCapacity(projectId, delta)` over the
locked ProjectUsage row.  `limit` is the owning plan's
`vectorLimitPerProject` (`none` = unlimited) and `count` the current
`vectorCount`.  For `delta > 0`: if the limit is non-null and
`count + delta > limit`, return Rejected with the limit and current count,
leaving the count unchanged; otherwise increment and return Reserved.
For `delta ≤ 0`: always permitted, the increment floored at 0. -/
def reserveCapacity (limit : Option ℤ) (count : ℤ) (delta : ℤ) :
    ReserveResult × ℤ :=
  if 0 < delta then
    match limit with
    | some l =>
      if l < count + delta then (ReserveResult.Rejected l count, count)
      else (ReserveResult.Reserved, count + delta)
    | none => (ReserveResult.Reserved, count + delta)
  else
    (ReserveResult.Reserved, max 0 (count + delta))

/-- A batch of `n` ingest reservations (`delta = +1`) against the same
project (the row lock serializes concurrent reservations, so a batch of
identical concurrent calls is a sequence). -/
def reserveBatch (limit : Option ℤ) (count : ℤ) :
    ℕ → List ReserveResult × ℤ
  | 0 => ([], count)
  | n + 1 =>
    let r := reserveCapacity limit count 1
    let rest := reserveBatch limit r.2 n
    (r.1 :: rest.1, rest.2)

/-- Number of Reserved outcomes in a list of reservation results. -/
def countReserved : List ReserveResult → ℕ
  | [] => 0
  | ReserveResult.Reserved :: rs => countReserved rs + 1
  | ReserveResult.Rejected _ _ :: rs => countReserved rs

/-- The `vectorCount` after running a sequence of reservations (arbitrary
deltas: ingests, deletes, compensations) through the capacity guard. -/
def runReservations (limit : Option ℤ) (count : ℤ) : List ℤ → ℤ
  | [] => count
  | d :: ds => runReservations limit (reserveCapacity limit count d).2 ds

/-! ## Frontend: fetchWithAuth (src/frontend/src/lib/api.ts) -/

/-- Observable outcome of `fetchWithAuth`: either a resolved `Response`
with a status code, or the thrown `Error('Authentication failed')`. -/
inductive FetchOutcome where
  | response (status : ℕ) : FetchOutcome
  | authFailed : FetchOutcome
deriving DecidableEq

/-- Embedding of `fetchWithAuth` from `src/frontend/src/lib/api.ts`
(lines 17–50), abstracting the network: `first` is the status of the
initial `fetch(url, options)`, `refreshOk` tells whether the
`/api/auth/refresh` POST resolves with an ok status, and `retry` is the
status of the retried request.  The second component counts how many times
the original request was fetched.  On a 401 for any url other than
`/api/auth/refresh` the code awaits a refresh and retries once, throwing
`Error('Authentication failed')` when the refresh fails; any other status
is returned unchanged. -/
def fetchWithAuth (url : String) (first : ℕ) (refreshOk : Bool)
    (retry : ℕ) : FetchOutcome × ℕ :=
  if first = 401 ∧ url ≠ "/api/auth/refresh" then
    if refreshOk then (FetchOutcome.response retry, 2)
    else (FetchOutcome.authFailed, 1)
  else (FetchOutcome.response first, 1)

/-- State of the module-level refresh lock in `src/frontend/src/lib/api.ts`:
whether `refreshPromise` is currently non-null, how many refresh fetches
have been started, and how many have settled. -/
structure RefreshLockState where
  refreshPromise : Bool
  started : ℕ
  settled : ℕ
deriving DecidableEq

/-- Event-loop steps of the refresh lock (`api.ts` lines 21–39): a 401
handler that finds `refreshPromise` non-null awaits it (no new fetch); a
handler that finds it null starts a new refresh fetch and installs the
promise (the check and assignment run without an intervening await, hence
in one atomic step of the single-threaded event loop); when the refresh
settles, the `.finally` callback resets `refreshPromise` to null. -/
inductive RefreshLockStep : RefreshLockState → RefreshLockState → Prop where
  | awaitExisting (s : RefreshLockState) :
      s.refreshPromise = true → RefreshLockStep s s
  | startRefresh (s : RefreshLockState) :
      s.refreshPromise = false →
      RefreshLockStep s ⟨true, s.started + 1, s.settled⟩
  | settleRefresh (s : RefreshLockState) :
      s.refreshPromise = true →
      RefreshLockStep s ⟨false, s.started, s.settled + 1⟩

/-- Refresh-lock states reachable from the initial module state
(`refreshPromise = null`, no refresh ever started). -/
inductive RefreshReachable : RefreshLockState → Prop where
  | init : RefreshReachable ⟨false, 0, 0⟩
  | step {s s' : RefreshLockState} :
      RefreshReachable s → RefreshLockStep s s' → RefreshReachable s'

/-! ## Frontend: usage percentages (src/frontend/src/routes/projects/index.tsx) -/

/-- Embedding of the percentage computation of
`src/frontend/src/routes/projects/index.tsx` (lines 150–157), used for both
`vectorPercent` (from `total_vectors` over `vector_limit`) and
`projectPercent` (from `project_count` over `project_limit`):
`limit ? Math.min(100, Math.round((current / limit) * 100)) : 0`.
A `null` limit is `none`; `some 0` is falsy in the conditional just like
the number 0 in TypeScript.  `round` is Mathlib's round-half-up, which
agrees with JavaScript `Math.round`. -/
def usagePercent (current : ℕ) (limit : Option ℕ) : ℤ :=
  match limit with
  | none => 0
  | some l =>
    if l = 0 then 0
    else min 100 (round ((current : ℚ) / (l : ℚ) * 100))


/-! ## Helper lemmas -/

lemma refillTokens_same_instant (c k t : ℚ) (hk : k ≤ c) :
    refillTokens ⟨c, k, t⟩ t = k := by
  simp [refillTokens, sub_self, min_eq_right hk]

lemma consume_same_instant_admitted (c k t : ℚ) (hk : k ≤ c) (h1 : 1 ≤ k) :
    consume_rate_limit ⟨c, k, t⟩ t =
      (RateDecision.Admitted, ⟨c, k - 1, t⟩) := by
  simp [consume_rate_limit, refillTokens_same_instant c k t hk, h1]

lemma consume_same_instant_denied (c k t : ℚ) (hk : k ≤ c) (h1 : ¬ 1 ≤ k) :
    consume_rate_limit ⟨c, k, t⟩ t =
      (RateDecision.Denied ((1 - k) / c), ⟨c, k, t⟩) := by
  simp [consume_rate_limit, refillTokens_same_instant c k t hk, h1]

lemma admitBatch_length (now : ℚ) :
    ∀ (n : ℕ) (b : RateLimitBucket), (admitBatch n b now).1.length = n := by
  intro n
  induction n with
  | zero => intro b; simp [admitBatch]
  | succ n ih => intro b; simp [admitBatch, ih]

lemma countAdmitted_add_countDenied :
    ∀ rs : List RateDecision, countAdmitted rs + countDenied rs = rs.length := by
  intro rs
  induction rs with
  | nil => rfl
  | cons r rs ih =>
    cases r <;> simp [countAdmitted, countDenied] <;> omega

lemma admitBatch_countAdmitted (c t : ℚ) :
    ∀ (n k : ℕ), (k : ℚ) ≤ c →
      countAdmitted (admitBatch n ⟨c, (k : ℚ), t⟩ t).1 = min n k := by
  intro n
  induction n with
  | zero => intro k hk; simp [admitBatch, countAdmitted]
  | succ n ih =>
    intro k hk
    match k with
    | 0 =>
      have h1 : ¬ (1 : ℚ) ≤ ((0 : ℕ) : ℚ) := by norm_num
      rw [admitBatch]
      rw [consume_same_instant_denied c _ t hk h1]
      simpa [countAdmitted] using ih 0 hk
    | m + 1 =>
      have h1 : (1 : ℚ) ≤ ((m + 1 : ℕ) : ℚ) := by push_cast; linarith
      have hm : ((m : ℕ) : ℚ) ≤ c := by
        have : ((m : ℕ) : ℚ) ≤ ((m + 1 : ℕ) : ℚ) := by push_cast; linarith
        linarith
      have hsub : ((m + 1 : ℕ) : ℚ) - 1 = ((m : ℕ) : ℚ) := by push_cast; ring
      rw [admitBatch]
      rw [consume_same_instant_admitted c _ t hk h1]
      simp only [countAdmitted, hsub]
      rw [ih m hm]
      omega

lemma reserveBatch_limited (L : ℤ) :
    ∀ (n : ℕ) (C : ℤ),
      countReserved (reserveBatch (some L) C n).1 = min n (L - C).toNat ∧
      (reserveBatch (some L) C n).2 = C + min (n : ℤ) (max 0 (L - C)) := by
  intro n
  induction n with
  | zero =>
    intro C
    constructor
    · simp [reserveBatch, countReserved]
    · simp only [reserveBatch]
      push_cast
      omega
  | succ n ih =>
    intro C
    by_cases h : L < C + 1
    · have hstep : reserveCapacity (some L) C 1 = (ReserveResult.Rejected L C, C) := by
        simp [reserveCapacity, h]
      obtain ⟨ih1, ih2⟩ := ih C
      rw [reserveBatch]
      simp only [hstep, countReserved, ih1, ih2]
      constructor
      · omega
      · push_cast
        omega
    · have hstep : reserveCapacity (some L) C 1 = (ReserveResult.Reserved, C + 1) := by
        simp [reserveCapacity, h]
      obtain ⟨ih1, ih2⟩ := ih (C + 1)
      rw [reserveBatch]
      simp only [hstep, countReserved, ih1, ih2]
      constructor
      · omega
      · push_cast
        omega

lemma reserveCapacity_pos_some_reject (l count d : ℤ) (hd : 0 < d)
    (hl : l < count + d) :
    reserveCapacity (some l) count d = (ReserveResult.Rejected l count, count) := by
  simp [reserveCapacity, hd, hl]

lemma reserveCapacity_pos_some_ok (l count d : ℤ) (hd : 0 < d)
    (hl : ¬ l < count + d) :
    reserveCapacity (some l) count d = (ReserveResult.Reserved, count + d) := by
  simp [reserveCapacity, hd, hl]

lemma reserveCapacity_pos_none (count d : ℤ) (hd : 0 < d) :
    reserveCapacity none count d = (ReserveResult.Reserved, count + d) := by
  simp [reserveCapacity, hd]

lemma reserveCapacity_nonpos (limit : Option ℤ) (count d : ℤ) (hd : ¬ 0 < d) :
    reserveCapacity limit count d = (ReserveResult.Reserved, max 0 (count + d)) := by
  simp [reserveCapacity, hd]

lemma reserveCapacity_snd_nonneg (limit : Option ℤ) (count d : ℤ)
    (h0 : 0 ≤ count) : 0 ≤ (reserveCapacity limit count d).2 := by
  by_cases hd : 0 < d
  · rcases limit with _ | l
    · rw [reserveCapacity_pos_none count d hd]
      show 0 ≤ count + d
      omega
    · by_cases hl : l < count + d
      · rw [reserveCapacity_pos_some_reject l count d hd hl]
        exact h0
      · rw [reserveCapacity_pos_some_ok l count d hd hl]
        show 0 ≤ count + d
        omega
  · rw [reserveCapacity_nonpos limit count d hd]
    show 0 ≤ max 0 (count + d)
    omega

lemma runReservations_nonneg (limit : Option ℤ) :
    ∀ (ds : List ℤ) (count : ℤ), 0 ≤ count →
      0 ≤ runReservations limit count ds := by
  intro ds
  induction ds with
  | nil => intro count h0; simpa [runReservations] using h0
  | cons d ds ih =>
    intro count h0
    rw [runReservations]
    exact ih _ (reserveCapacity_snd_nonneg limit count d h0)

lemma refresh_lock_invariant :
    ∀ s, RefreshReachable s →
      s.started = s.settled + (if s.refreshPromise then 1 else 0) := by
  intro s h
  induction h with
  | init => simp
  | step hr hstep ih =>
    cases hstep with
    | awaitExisting hp => exact ih
    | startRefresh hp =>
      simp [hp] at ih
      simp [ih]
    | settleRefresh hp =>
      simp [hp] at ih
      simp [ih]

lemma round_nonneg_of_nonneg (q : ℚ) (hq : 0 ≤ q) : 0 ≤ round q := by
  rw [round_eq]
  rw [Int.le_floor]
  push_cast
  linarith

/-! ## Claim theorems -/

/-- C1: for a project whose plan has vector limit L and current count C ≤ L,
a batch of N ingest reservations (+1 each) yields exactly min(N, L−C)
Reserved outcomes, and the vector count never exceeds L at the moment any
ingest commits (after any number of reservations in the batch). -/
theorem c1_capacity_exactness (L C : ℤ) (N : ℕ) (hCL : C ≤ L) :
    ((countReserved (reserveBatch (some L) C N).1 : ℤ) = min (N : ℤ) (L - C)) ∧
    (∀ M : ℕ, (reserveBatch (some L) C M).2 ≤ L) := by
  constructor
  · have h := (reserveBatch_limited L N C).1
    rw [h]
    omega
  · intro M
    have h := (reserveBatch_limited L M C).2
    rw [h]
    omega

/-- C1 witness: L = 10000, C = 9999, N = 3 gives exactly one Reserved and
the count stays ≤ 10000 after 5 reservation attempts. -/
theorem c1_capacity_exactness_witness :
    (9999 : ℤ) ≤ 10000 ∧
    ((countReserved (reserveBatch (some 10000) 9999 3).1 : ℤ) =
      min (3 : ℤ) (10000 - 9999)) ∧
    (reserveBatch (some 10000) 9999 5).2 ≤ 10000 := by
  refine ⟨by norm_num, (c1_capacity_exactness 10000 9999 3 (by norm_num)).1,
    (c1_capacity_exactness 10000 9999 5 (by norm_num)).2 5⟩

/-- C2 counterexample: the claim predicts that a batch of N admission
checks against a bucket holding exactly K tokens yields exactly K Admitted
outcomes for any N and K; at N = 1, K = 2 the batch yields 1 Admitted, not
2 (only N calls exist). -/
theorem c2_counterexample :
    countAdmitted (admitBatch 1 ⟨5, 2, 0⟩ 0).1 = 1 ∧
    countAdmitted (admitBatch 1 ⟨5, 2, 0⟩ 0).1 ≠ 2 := by
  constructor <;>
  · simp only [admitBatch, consume_rate_limit, refillTokens]
    norm_num [countAdmitted]

/-- C2 (amended): for a serialized batch of N admission checks against a
bucket initialized with exactly K tokens (K ≤ capacity) and no refill
accruing during the batch, exactly min(N, K) checks are Admitted — tokens
are never double-spent — and when K ≤ N exactly K are Admitted and N − K
Denied. -/
theorem c2_no_double_spend (c t : ℚ) (K N : ℕ) (hK : (K : ℚ) ≤ c) :
    countAdmitted (admitBatch N ⟨c, (K : ℚ), t⟩ t).1 = min N K ∧
    countDenied (admitBatch N ⟨c, (K : ℚ), t⟩ t).1 = N - min N K ∧
    (K ≤ N →
      countAdmitted (admitBatch N ⟨c, (K : ℚ), t⟩ t).1 = K ∧
      countDenied (admitBatch N ⟨c, (K : ℚ), t⟩ t).1 = N - K) := by
  have h1 := admitBatch_countAdmitted c t N K hK
  have h2 := countAdmitted_add_countDenied (admitBatch N ⟨c, (K : ℚ), t⟩ t).1
  have h3 := admitBatch_length t N ⟨c, (K : ℚ), t⟩
  rw [h3] at h2
  exact ⟨h1, by omega, fun hKN => ⟨by omega, by omega⟩⟩

/-- C2 witness: capacity 5, K = 2 tokens, N = 3 calls: 2 Admitted, 1 Denied. -/
theorem c2_no_double_spend_witness :
    ((2 : ℕ) : ℚ) ≤ 5 ∧ (2 : ℕ) ≤ 3 ∧
    countAdmitted (admitBatch 3 ⟨5, ((2 : ℕ) : ℚ), 0⟩ 0).1 = 2 ∧
    countDenied (admitBatch 3 ⟨5, ((2 : ℕ) : ℚ), 0⟩ 0).1 = 3 - 2 := by
  have h := (c2_no_double_spend 5 0 2 3 (by norm_num)).2.2 (by norm_num)
  exact ⟨by norm_num, by norm_num, h.1, h.2⟩

/-- C3: the refill step computes min(capacity, tokens + elapsed * capacity)
with negative elapsed clamped to 0 and burst ceiling = capacity, and after
every admission check the stored bucket satisfies 0 ≤ tokens ≤ capacity,
for any `now`. -/
theorem c3_token_bounds (b : RateLimitBucket) (now : ℚ)
    (htok : 0 ≤ b.tokens) (hcap : 0 < b.capacity) :
    refillTokens b now =
      min b.capacity (b.tokens + max 0 (now - b.lastRefillAt) * b.capacity) ∧
    0 ≤ (consume_rate_limit b now).2.tokens ∧
    (consume_rate_limit b now).2.tokens ≤ (consume_rate_limit b now).2.capacity := by
  have he : 0 ≤ max 0 (now - b.lastRefillAt) * b.capacity :=
    mul_nonneg (le_max_left 0 _) (le_of_lt hcap)
  have hrt0 : 0 ≤ refillTokens b now :=
    le_min (le_of_lt hcap) (by linarith)
  have hrtc : refillTokens b now ≤ b.capacity := min_le_left _ _
  by_cases h1 : 1 ≤ refillTokens b now
  · refine ⟨rfl, ?_, ?_⟩
    · simp only [consume_rate_limit, if_pos h1]
      linarith
    · simp only [consume_rate_limit, if_pos h1]
      linarith
  · refine ⟨rfl, ?_, ?_⟩
    · simp only [consume_rate_limit, if_neg h1]
      exact hrt0
    · simp only [consume_rate_limit, if_neg h1]
      exact hrtc

/-- C3 witness: bucket (capacity 5, tokens 3) checked far in the future
still satisfies the bounds. -/
theorem c3_token_bounds_witness :
    (0 : ℚ) ≤ (3 : ℚ) ∧ (0 : ℚ) < (5 : ℚ) ∧
    0 ≤ (consume_rate_limit ⟨5, 3, 0⟩ 100).2.tokens ∧
    (consume_rate_limit ⟨5, 3, 0⟩ 100).2.tokens ≤
      (consume_rate_limit ⟨5, 3, 0⟩ 100).2.capacity := by
  have h := c3_token_bounds ⟨5, 3, 0⟩ 100 (by norm_num) (by norm_num)
  exact ⟨by norm_num, by norm_num, h.2.1, h.2.2⟩

/-- C4: the admission check returns Admitted iff the refreshed token count
is ≥ 1, in which case exactly one token is debited and lastRefillAt is set
to now; otherwise it returns Denied with retryAfterSeconds =
(1 − tokens)/capacity, writing back the refreshed tokens and lastRefillAt
without debiting. -/
theorem c4_admit_iff (b : RateLimitBucket) (now : ℚ) :
    ((consume_rate_limit b now).1 = RateDecision.Admitted ↔
      1 ≤ refillTokens b now) ∧
    (1 ≤ refillTokens b now →
      consume_rate_limit b now =
        (RateDecision.Admitted,
          { b with tokens := refillTokens b now - 1, lastRefillAt := now })) ∧
    (¬ 1 ≤ refillTokens b now →
      consume_rate_limit b now =
        (RateDecision.Denied ((1 - refillTokens b now) / b.capacity),
          { b with tokens := refillTokens b now, lastRefillAt := now })) := by
  by_cases h1 : 1 ≤ refillTokens b now <;>
    simp [consume_rate_limit, h1]

/-- C4 witness: bucket (capacity 5, tokens 3) at the same instant has
refill 3 ≥ 1 and is admitted with one token debited. -/
theorem c4_admit_iff_witness :
    (1 : ℚ) ≤ refillTokens ⟨5, 3, 0⟩ 0 ∧
    consume_rate_limit ⟨5, 3, 0⟩ 0 =
      (RateDecision.Admitted, ⟨5, refillTokens ⟨5, 3, 0⟩ 0 - 1, 0⟩) := by
  have h1 : (1 : ℚ) ≤ refillTokens ⟨5, 3, 0⟩ 0 := by
    rw [refillTokens_same_instant 5 3 0 (by norm_num)]
    norm_num
  exact ⟨h1, (c4_admit_iff ⟨5, 3, 0⟩ 0).2.1 h1⟩

/-- C5: with delta > 0, reserveCapacity returns Rejected(limit, current)
exactly when the plan limit is non-null and count + delta > limit, leaving
the count unchanged; otherwise it increments by delta and returns Reserved. -/
theorem c5_reserve_reject_contract (limit : Option ℤ) (count delta : ℤ)
    (hd : 0 < delta) :
    (∀ l, limit = some l → count + delta > l →
      reserveCapacity limit count delta =
        (ReserveResult.Rejected l count, count)) ∧
    (∀ l, limit = some l → ¬ count + delta > l →
      reserveCapacity limit count delta =
        (ReserveResult.Reserved, count + delta)) ∧
    (limit = none →
      reserveCapacity limit count delta =
        (ReserveResult.Reserved, count + delta)) ∧
    ((reserveCapacity limit count delta).1 = ReserveResult.Reserved ↔
      ∀ l, limit = some l → count + delta ≤ l) := by
  refine ⟨?_, ?_, ?_, ?_⟩
  · rintro l rfl hl
    exact reserveCapacity_pos_some_reject l count delta hd (by omega)
  · rintro l rfl hl
    exact reserveCapacity_pos_some_ok l count delta hd (by omega)
  · rintro rfl
    exact reserveCapacity_pos_none count delta hd
  · rcases limit with _ | l
    · rw [reserveCapacity_pos_none count delta hd]
      simp
    · by_cases hl : l < count + delta
      · rw [reserveCapacity_pos_some_reject l count delta hd hl]
        simp
        omega
      · rw [reserveCapacity_pos_some_ok l count delta hd hl]
        simp
        omega

/-- C5 witness: limit 10: at count 10 an ingest is Rejected(10, 10) with
the count unchanged; at count 9 it is Reserved and the count becomes 10. -/
theorem c5_reserve_reject_contract_witness :
    (0 : ℤ) < 1 ∧
    reserveCapacity (some 10) 10 1 = (ReserveResult.Rejected 10 10, 10) ∧
    reserveCapacity (some 10) 9 1 = (ReserveResult.Reserved, 10) := by
  refine ⟨by norm_num,
    (c5_reserve_reject_contract (some 10) 10 1 (by norm_num)).1 10 rfl (by norm_num),
    ?_⟩
  have h := (c5_reserve_reject_contract (some 10) 9 1 (by norm_num)).2.1 10 rfl (by norm_num)
  simpa using h

/-- C6: with delta < 0 the guard always returns Reserved and floors the new
count at 0 (new count = max(0, count + delta)); consequently, starting from
any non-negative count, the count stays non-negative after any sequence of
reservations. -/
theorem c6_delete_floored (limit : Option ℤ) (count delta : ℤ)
    (hd : delta < 0) (h0 : 0 ≤ count) :
    reserveCapacity limit count delta =
      (ReserveResult.Reserved, max 0 (count + delta)) ∧
    ∀ ds : List ℤ, 0 ≤ runReservations limit count ds := by
  refine ⟨reserveCapacity_nonpos limit count delta (by omega), ?_⟩
  intro ds
  exact runReservations_nonneg limit ds count h0

/-- C6 witness: a delete at count 0 stays at 0, and a mixed sequence of
deletes and an ingest from 0 never goes negative. -/
theorem c6_delete_floored_witness :
    (-1 : ℤ) < 0 ∧ (0 : ℤ) ≤ 0 ∧
    reserveCapacity (some 10000) 0 (-1) =
      (ReserveResult.Reserved, max 0 (0 + -1)) ∧
    0 ≤ runReservations (some 10000) 0 [-1, -1, 1, -1] := by
  have h := c6_delete_floored (some 10000) 0 (-1) (by norm_num) (by norm_num)
  exact ⟨by norm_num, by norm_num, h.1, h.2 [-1, -1, 1, -1]⟩

/-- C7: applying a plan rewrites the bucket capacity to the new plan limit
for its kind and clamps the stored tokens to the new capacity; a downgrade
below the current tokens lowers them to the new capacity. -/
theorem c7_plan_clamp (p : Plan) (kind : BucketKind) (b : RateLimitBucket) :
    (apply_plan_limits p kind b).capacity = planLimitFor p kind ∧
    (apply_plan_limits p kind b).tokens = min b.tokens (planLimitFor p kind) ∧
    (apply_plan_limits p kind b).tokens ≤ planLimitFor p kind ∧
    (planLimitFor p kind < b.tokens →
      (apply_plan_limits p kind b).tokens = planLimitFor p kind) := by
  exact ⟨rfl, rfl, min_le_right _ _, fun h => min_eq_right (le_of_lt h)⟩

/-- C7 witness: downgrading a bucket holding 10 tokens to the tinkering
plan (query QPS 5) clamps tokens to 5. -/
theorem c7_plan_clamp_witness :
    planLimitFor tinkering BucketKind.query < (10 : ℚ) ∧
    (apply_plan_limits tinkering BucketKind.query ⟨100, 10, 0⟩).tokens =
      planLimitFor tinkering BucketKind.query := by
  have h5 : planLimitFor tinkering BucketKind.query <
      (⟨100, 10, 0⟩ : RateLimitBucket).tokens := by
    show (5 : ℚ) < 10
    norm_num
  exact ⟨h5, (c7_plan_clamp tinkering BucketKind.query ⟨100, 10, 0⟩).2.2.2 h5⟩

/-- C8: a fresh tenant on plan tinkering (ingest QPS 5) issuing 6 ingest
admission checks within the same second gets Admitted for the first 5 and
Denied with retryAfterSeconds = 1/5 = 0.2 for the 6th. -/
theorem c8_tinkering_six_ingests :
    (admitBatch 6 (freshBucket tinkering BucketKind.ingest 0) 0).1 =
      [RateDecision.Admitted, RateDecision.Admitted, RateDecision.Admitted,
       RateDecision.Admitted, RateDecision.Admitted,
       RateDecision.Denied (1 / 5)] ∧
    (1 : ℚ) / 5 = 0.2 := by
  constructor
  · simp only [admitBatch, consume_rate_limit, refillTokens, freshBucket,
      tinkering, planLimitFor]
    norm_num
  · norm_num

/-- C9: for any url other than '/api/auth/refresh', a 401 first response
triggers one refresh and exactly one retry of the original request when
the refresh succeeds, and an 'Authentication failed' error (not the 401)
when it fails; any non-401 first response is returned unchanged; and in
every reachable state of the shared refresh lock at most one refresh
request is in flight (started − settled ≤ 1). -/
theorem c9_fetch_with_auth_refresh (url : String) (first : ℕ)
    (refreshOk : Bool) (retry : ℕ) :
    (first = 401 → url ≠ "/api/auth/refresh" →
      (refreshOk = true →
        fetchWithAuth url first refreshOk retry =
          (FetchOutcome.response retry, 2)) ∧
      (refreshOk = false →
        fetchWithAuth url first refreshOk retry =
          (FetchOutcome.authFailed, 1))) ∧
    (first ≠ 401 →
      fetchWithAuth url first refreshOk retry =
        (FetchOutcome.response first, 1)) ∧
    (∀ s, RefreshReachable s →
      s.settled ≤ s.started ∧ s.started ≤ s.settled + 1) := by
  refine ⟨?_, ?_, ?_⟩
  · intro h401 hurl
    constructor
    · intro hOk
      simp [fetchWithAuth, h401, hurl, hOk]
    · intro hOk
      simp [fetchWithAuth, h401, hurl, hOk]
  · intro h
    simp [fetchWithAuth, h]
  · intro s hs
    have h := refresh_lock_invariant s hs
    by_cases hp : s.refreshPromise
    · simp [hp] at h
      omega
    · simp [hp] at h
      omega

/-- C9 witness: concrete 401/non-401 calls and the initial lock state. -/
theorem c9_fetch_with_auth_refresh_witness :
    ("/api/projects/onload" : String) ≠ "/api/auth/refresh" ∧
    fetchWithAuth "/api/projects/onload" 401 true 200 =
      (FetchOutcome.response 200, 2) ∧
    fetchWithAuth "/api/projects/onload" 401 false 200 =
      (FetchOutcome.authFailed, 1) ∧
    fetchWithAuth "/api/projects/onload" 500 true 200 =
      (FetchOutcome.response 500, 1) ∧
    (⟨false, 0, 0⟩ : RefreshLockState).started ≤
      (⟨false, 0, 0⟩ : RefreshLockState).settled + 1 := by
  have hurl : ("/api/projects/onload" : String) ≠ "/api/auth/refresh" := by
    decide
  refine ⟨hurl, ?_, ?_, ?_, ?_⟩
  · exact ((c9_fetch_with_auth_refresh "/api/projects/onload" 401 true 200).1
      rfl hurl).1 rfl
  · exact ((c9_fetch_with_auth_refresh "/api/projects/onload" 401 false 200).1
      rfl hurl).2 rfl
  · exact (c9_fetch_with_auth_refresh "/api/projects/onload" 500 true 200).2.1
      (by norm_num)
  · exact ((c9_fetch_with_auth_refresh "/api/projects/onload" 500 true 200).2.2
      ⟨false, 0, 0⟩ RefreshReachable.init).2

/-- C10: the displayed usage percentage is always between 0 and 100; it is
0 when the limit is null or not positive, and otherwise equals
min(100, round(current / limit * 100)). -/
theorem c10_percent_bounds (current : ℕ) (limit : Option ℕ) :
    0 ≤ usagePercent current limit ∧
    usagePercent current limit ≤ 100 ∧
    (limit = none → usagePercent current limit = 0) ∧
    (limit = some 0 → usagePercent current limit = 0) ∧
    (∀ l, limit = some l → 0 < l →
      usagePercent current limit =
        min 100 (round ((current : ℚ) / (l : ℚ) * 100))) := by
  rcases limit with _ | l
  · refine ⟨le_refl 0, by show (0 : ℤ) ≤ 100; norm_num, fun _ => rfl,
      by simp, by simp⟩
  · by_cases hl : l = 0
    · subst hl
      refine ⟨le_refl 0, by show (0 : ℤ) ≤ 100; norm_num, by simp,
        fun _ => rfl, ?_⟩
      intro l' hl' hpos
      cases hl'
      exact absurd hpos (by norm_num)
    · have hq : 0 ≤ ((current : ℚ) / (l : ℚ) * 100) := by positivity
      have hr : 0 ≤ round ((current : ℚ) / (l : ℚ) * 100) :=
        round_nonneg_of_nonneg _ hq
      refine ⟨?_, ?_, by simp, by simp [hl], ?_⟩
      · simp only [usagePercent, if_neg hl]
        exact le_min (by norm_num) hr
      · simp only [usagePercent, if_neg hl]
        exact min_le_left _ _
      · intro l' hl' hpos
        cases hl'
        simp [usagePercent, hl]

/-- C10 witness: usage over the limit (12000 of 10000) stays within
0..100, and null/zero limits give 0. -/
theorem c10_percent_bounds_witness :
    0 ≤ usagePercent 12000 (some 10000) ∧
    usagePercent 12000 (some 10000) ≤ 100 ∧
    usagePercent 3 none = 0 ∧
    usagePercent 3 (some 0) = 0 := by
  exact ⟨(c10_percent_bounds 12000 (some 10000)).1,
    (c10_percent_bounds 12000 (some 10000)).2.1,
    (c10_percent_bounds 3 none).2.2.1 rfl,
    (c10_percent_bounds 3 (some 0)).2.2.2.1 rfl⟩

end RetrieverSh
